import Mathlib

/-!
Shallow embedding of the jupUSD quoting and rate-limiting logic.

Sources embedded here:
* src/packages/sdk/src/quote/mint.ts   (getMintQuote and its helpers)
* src/packages/sdk/src/quote/redeem.ts (getRedeemQuote and its helpers)
* src/packages/cli/src/index.ts        (findPeriodLimitViolation and helpers)
* the peg-price CLI flag parser (parsePegPriceFlag / parseU64StringFlag)

TypeScript BigInt arithmetic is exact integer arithmetic with division and
remainder truncating toward zero, so BigInt values are modelled as Int and
BigInt division/remainder as Int.tdiv / Int.tmod.  Thrown exceptions are
modelled as Except String carrying the thrown message.  The wall clock read
by Date.now() inside findPeriodLimitViolation is passed in as an explicit
argument.  Struct fields carry only the fields the embedded functions read.
-/

namespace JupUsd

/-- Decidable equality on Except values, so concrete runs of the embedded
functions can be checked by decide. -/
instance {ε α : Type} [DecidableEq ε] [DecidableEq α] : DecidableEq (Except ε α) :=
  fun x y =>
    match x, y with
    | Except.error a, Except.error b =>
      if h : a = b then Decidable.isTrue (by rw [h])
      else Decidable.isFalse (by intro c; injection c; contradiction)
    | Except.error _, Except.ok _ => Decidable.isFalse (by intro c; exact Except.noConfusion c)
    | Except.ok _, Except.error _ => Decidable.isFalse (by intro c; exact Except.noConfusion c)
    | Except.ok a, Except.ok b =>
      if h : a = b then Decidable.isTrue (by rw [h])
      else Decidable.isFalse (by intro c; injection c; contradiction)

/-- Constant BASIS_POINTS = 10_000n (defined identically in mint.ts and
redeem.ts). -/
def BASIS_POINTS : Int := 10000

/-- Constant PEG_PRICE_DECIMALS = 4 from mint.ts (the CLI flag parser defines
the same constant with the same value). -/
def PEG_PRICE_DECIMALS : Nat := 4

/-- Constant ORACLE_PRICE_DECIMALS = 8 from mint.ts. -/
def ORACLE_PRICE_DECIMALS : Nat := 8

/-- Constant PEG_PRICE_SCALE = 10n ** 4n from mint.ts. -/
def PEG_PRICE_SCALE : Int := 10 ^ PEG_PRICE_DECIMALS

/-- Constant ORACLE_PRICE_SCALE = 10n ** 8n from mint.ts. -/
def ORACLE_PRICE_SCALE : Int := 10 ^ ORACLE_PRICE_DECIMALS

/-- Function ceilBigInt from mint.ts: n / d + (n % d ? 1n : 0n), with BigInt
truncating division and remainder. -/
def ceilBigInt (n d : Int) : Int :=
  Int.tdiv n d + (if Int.tmod n d ≠ 0 then 1 else 0)

/-- PeriodLimit slot as described by the generated account layout: a rolling
window with per-operation caps and counters. -/
structure PeriodLimit where
  durationSeconds : Int
  maxMintAmount : Int
  maxRedeemAmount : Int
  mintedAmount : Int
  redeemedAmount : Int
  windowStart : Int
deriving DecidableEq, Repr

/-- Config fields read by the embedded functions. -/
structure Config where
  pegPriceUsd : Int
  decimals : Int
  periodLimits : List PeriodLimit
deriving DecidableEq, Repr

/-- Vault fields read by the embedded functions. -/
structure Vault where
  minOraclePriceUsd : Int
  maxOraclePriceUsd : Int
  decimals : Int
  periodLimits : List PeriodLimit
deriving DecidableEq, Repr

/-- Benefactor fields read by the embedded functions. -/
structure Benefactor where
  mintFeeRate : Int
  redeemFeeRate : Int
  periodLimits : List PeriodLimit
deriving DecidableEq, Repr

/-- Function ensureNonNegativeInteger from mint.ts (redeem.ts repeats it
verbatim); the Number.isInteger half of the check is inherent in Int. -/
def ensureNonNegativeInteger (value : Int) (field : String) : Except String Int :=
  if value < 0 then Except.error (field ++ " must be a non-negative integer")
  else Except.ok value

/-- Function pow10 from mint.ts (redeem.ts repeats it verbatim). -/
def pow10 (exponent : Int) : Except String Int :=
  if exponent < 0 then
    Except.error "Decimal exponents must be a non-negative integer"
  else Except.ok ((10 : Int) ^ exponent.toNat)

/-- MintQuoteInput from mint.ts (numeric fields already coerced by toBigInt,
whose non-integer failure cases have no Int counterpart). -/
structure MintQuoteInput where
  amountIn : Int
  config : Config
  benefactor : Benefactor
  vault : Vault
  oraclePriceUsd : Int
deriving DecidableEq, Repr

/-- MintQuote return type from mint.ts. -/
structure MintQuote where
  amountIn : Int
  feeAmount : Int
  netAmount : Int
  oracleAmount : Int
  oneToOneAmount : Int
  mintAmount : Int
deriving DecidableEq, Repr

namespace Mint

/-- Function computeMintFee from mint.ts. -/
def computeMintFee (amount : Int) (mintFeeRate : Int) : Except String Int :=
  if mintFeeRate < 0 then
    Except.error "mintFeeRate must be a non-negative integer"
  else Except.ok (ceilBigInt (amount * mintFeeRate) BASIS_POINTS)

/-- Function computeOracleAmount from mint.ts. -/
def computeOracleAmount (amount oraclePriceUsd pegPriceUsd lpScale vaultScale : Int) :
    Except String Int :=
  if pegPriceUsd = 0 then Except.error "pegPriceUsd cannot be zero"
  else
    Except.ok (Int.tdiv (amount * oraclePriceUsd * lpScale * PEG_PRICE_SCALE)
      (pegPriceUsd * vaultScale * ORACLE_PRICE_SCALE))

/-- Function computeOneToOneAmount from mint.ts. -/
def computeOneToOneAmount (netAmount pegPriceUsd lpScale vaultScale : Int) :
    Except String Int :=
  if pegPriceUsd = 0 then Except.error "pegPriceUsd cannot be zero"
  else
    Except.ok (Int.tdiv (netAmount * PEG_PRICE_SCALE * lpScale)
      (pegPriceUsd * vaultScale))

end Mint

/-- Function getMintQuote from mint.ts; thrown errors propagate as
Except.error with the thrown message. -/
def getMintQuote (input : MintQuoteInput) : Except String MintQuote :=
  let amountIn := input.amountIn
  if amountIn ≤ 0 then Except.error "amountIn must be greater than zero" else
  let pegPriceUsd := input.config.pegPriceUsd
  if pegPriceUsd ≤ 0 then
    Except.error "config.pegPriceUsd must be greater than zero" else
  let oraclePriceUsd := input.oraclePriceUsd
  if oraclePriceUsd ≤ 0 then
    Except.error "oraclePriceUsd must be greater than zero" else
  let minOraclePrice :=
    input.vault.minOraclePriceUsd *
      10 ^ (ORACLE_PRICE_DECIMALS - PEG_PRICE_DECIMALS)
  if oraclePriceUsd < minOraclePrice then
    Except.error "oraclePriceUsd is outside of the vault configured bounds" else
  match ensureNonNegativeInteger input.vault.decimals "vault.decimals" with
  | Except.error e => Except.error e
  | Except.ok vaultDecimals =>
  match ensureNonNegativeInteger input.config.decimals "config.decimals" with
  | Except.error e => Except.error e
  | Except.ok lpMintDecimals =>
  match pow10 vaultDecimals with
  | Except.error e => Except.error e
  | Except.ok vaultScale =>
  match pow10 lpMintDecimals with
  | Except.error e => Except.error e
  | Except.ok lpScale =>
  match Mint.computeMintFee amountIn input.benefactor.mintFeeRate with
  | Except.error e => Except.error e
  | Except.ok feeAmount =>
  if feeAmount > amountIn then
    Except.error "Mint fee exceeds the provided amount" else
  let netAmount := amountIn - feeAmount
  match Mint.computeOracleAmount amountIn oraclePriceUsd pegPriceUsd lpScale vaultScale with
  | Except.error e => Except.error e
  | Except.ok oracleAmount =>
  match Mint.computeOneToOneAmount netAmount pegPriceUsd lpScale vaultScale with
  | Except.error e => Except.error e
  | Except.ok oneToOneAmount =>
  let mintAmount := if oracleAmount < oneToOneAmount then oracleAmount else oneToOneAmount
  Except.ok
    { amountIn := amountIn, feeAmount := feeAmount, netAmount := netAmount,
      oracleAmount := oracleAmount, oneToOneAmount := oneToOneAmount,
      mintAmount := mintAmount }

/-- RedeemQuoteInput from redeem.ts. -/
structure RedeemQuoteInput where
  amountIn : Int
  config : Config
  benefactor : Benefactor
  vault : Vault
  oraclePriceUsd : Int
deriving DecidableEq, Repr

/-- RedeemQuote return type from redeem.ts. -/
structure RedeemQuote where
  amountIn : Int
  feeAmount : Int
  netAmount : Int
  oracleAmount : Int
  oneToOneAmount : Int
  redeemAmount : Int
deriving DecidableEq, Repr

namespace Redeem

/-- Function computeRedeemFee from redeem.ts. -/
def computeRedeemFee (amount : Int) (redeemFeeRate : Int) : Except String Int :=
  if redeemFeeRate < 0 then
    Except.error "redeemFeeRate must be a non-negative integer"
  else Except.ok (ceilBigInt (amount * redeemFeeRate) BASIS_POINTS)

/-- Function computeOracleAmount from redeem.ts (divides by the oracle price,
the inverse of the mint-side conversion). -/
def computeOracleAmount (amount oraclePriceUsd pegPriceUsd lpScale vaultScale : Int) :
    Except String Int :=
  if oraclePriceUsd = 0 then Except.error "oraclePriceUsd cannot be zero"
  else
    Except.ok (Int.tdiv (amount * pegPriceUsd * vaultScale * ORACLE_PRICE_SCALE)
      (oraclePriceUsd * lpScale * PEG_PRICE_SCALE))

/-- Function computeOneToOneAmount from redeem.ts. -/
def computeOneToOneAmount (netAmount pegPriceUsd lpScale vaultScale : Int) :
    Except String Int :=
  if pegPriceUsd = 0 then Except.error "pegPriceUsd cannot be zero"
  else
    Except.ok (Int.tdiv (netAmount * pegPriceUsd * vaultScale)
      (PEG_PRICE_SCALE * lpScale))

end Redeem

/-- Function getRedeemQuote from redeem.ts; unlike getMintQuote it checks the
oracle price against both the vault minimum and maximum. -/
def getRedeemQuote (input : RedeemQuoteInput) : Except String RedeemQuote :=
  let amountIn := input.amountIn
  if amountIn ≤ 0 then Except.error "amountIn must be greater than zero" else
  let pegPriceUsd := input.config.pegPriceUsd
  if pegPriceUsd ≤ 0 then
    Except.error "config.pegPriceUsd must be greater than zero" else
  let oraclePriceUsd := input.oraclePriceUsd
  if oraclePriceUsd ≤ 0 then
    Except.error "oraclePriceUsd must be greater than zero" else
  let minOraclePrice :=
    input.vault.minOraclePriceUsd *
      10 ^ (ORACLE_PRICE_DECIMALS - PEG_PRICE_DECIMALS)
  let maxOraclePrice :=
    input.vault.maxOraclePriceUsd *
      10 ^ (ORACLE_PRICE_DECIMALS - PEG_PRICE_DECIMALS)
  if oraclePriceUsd < minOraclePrice ∨ oraclePriceUsd > maxOraclePrice then
    Except.error "oraclePriceUsd is outside of the vault configured bounds" else
  match ensureNonNegativeInteger input.vault.decimals "vault.decimals" with
  | Except.error e => Except.error e
  | Except.ok vaultDecimals =>
  match ensureNonNegativeInteger input.config.decimals "config.decimals" with
  | Except.error e => Except.error e
  | Except.ok lpMintDecimals =>
  match pow10 vaultDecimals with
  | Except.error e => Except.error e
  | Except.ok vaultScale =>
  match pow10 lpMintDecimals with
  | Except.error e => Except.error e
  | Except.ok lpScale =>
  match Redeem.computeRedeemFee amountIn input.benefactor.redeemFeeRate with
  | Except.error e => Except.error e
  | Except.ok feeAmount =>
  if feeAmount > amountIn then
    Except.error "Redeem fee exceeds the provided amount" else
  let netAmount := amountIn - feeAmount
  match Redeem.computeOracleAmount amountIn oraclePriceUsd pegPriceUsd lpScale vaultScale with
  | Except.error e => Except.error e
  | Except.ok oracleAmount =>
  match Redeem.computeOneToOneAmount netAmount pegPriceUsd lpScale vaultScale with
  | Except.error e => Except.error e
  | Except.ok oneToOneAmount =>
  let redeemAmount := if oracleAmount < oneToOneAmount then oracleAmount else oneToOneAmount
  Except.ok
    { amountIn := amountIn, feeAmount := feeAmount, netAmount := netAmount,
      oracleAmount := oracleAmount, oneToOneAmount := oneToOneAmount,
      redeemAmount := redeemAmount }

/-- Operation tag of the period-limit check from cli/src/index.ts; the
string-tag validity check of the source is inherent in the inductive. -/
inductive PeriodLimitCheckOperation where
  | mint
  | redeem
deriving DecidableEq, Repr

/-- Violation owner tag from cli/src/index.ts. -/
inductive PeriodLimitViolationAccount where
  | config
  | vault
  | benefactor
deriving DecidableEq, Repr

/-- PeriodLimitViolation from cli/src/index.ts. -/
structure PeriodLimitViolation where
  account : PeriodLimitViolationAccount
  remainingAmount : Int
deriving DecidableEq, Repr

/-- PeriodLimitCheckInput from cli/src/index.ts. -/
structure PeriodLimitCheckInput where
  amount : Int
  operation : PeriodLimitCheckOperation
  benefactor : Benefactor
  config : Config
  vault : Vault
deriving DecidableEq, Repr

/-- Function getRemainingCapacity from cli/src/index.ts. -/
def getRemainingCapacity (limit : PeriodLimit) (now : Int)
    (operation : PeriodLimitCheckOperation) : Option Int :=
  if limit.durationSeconds = 0 then none
  else
    let maxAmount :=
      match operation with
      | PeriodLimitCheckOperation.mint => limit.maxMintAmount
      | PeriodLimitCheckOperation.redeem => limit.maxRedeemAmount
    if maxAmount = 0 then some 0
    else
      let windowElapsed := now - limit.windowStart
      let usedAmount :=
        if windowElapsed ≥ limit.durationSeconds then 0
        else
          match operation with
          | PeriodLimitCheckOperation.mint => limit.mintedAmount
          | PeriodLimitCheckOperation.redeem => limit.redeemedAmount
      some (maxAmount - usedAmount)

/-- Function findLimitExceedance from cli/src/index.ts: the for-loop over the
slot list, returning at the first slot whose remaining capacity the amount
exceeds. -/
def findLimitExceedance (periodLimits : List PeriodLimit) (amount now : Int)
    (operation : PeriodLimitCheckOperation) : Option Int :=
  match periodLimits with
  | [] => none
  | limit :: rest =>
    match getRemainingCapacity limit now operation with
    | some remaining =>
      if amount > remaining then some (if remaining > 0 then remaining else 0)
      else findLimitExceedance rest amount now operation
    | none => findLimitExceedance rest amount now operation

/-- Function findPeriodLimitViolation from cli/src/index.ts; the wall-clock
seconds it reads through Date.now() are the explicit argument now. -/
def findPeriodLimitViolation (input : PeriodLimitCheckInput) (now : Int) :
    Except String (Option PeriodLimitViolation) :=
  if input.amount ≤ 0 then Except.error "amount must be greater than zero"
  else
    match findLimitExceedance input.config.periodLimits input.amount now input.operation with
    | some r =>
      Except.ok (some { account := PeriodLimitViolationAccount.config, remainingAmount := r })
    | none =>
      match findLimitExceedance input.vault.periodLimits input.amount now input.operation with
      | some r =>
        Except.ok (some { account := PeriodLimitViolationAccount.vault, remainingAmount := r })
      | none =>
        match findLimitExceedance input.benefactor.periodLimits input.amount now input.operation with
        | some r =>
          Except.ok (some { account := PeriodLimitViolationAccount.benefactor, remainingAmount := r })
        | none => Except.ok none

/-- Digit test used for the \d class of the flag-parser regexes. -/
def isDigitChar (c : Char) : Bool := c.isDigit

/-- Numeric value of a decimal digit string, as computed by BigInt(string) on
an all-digit string. -/
def digitsToNat (cs : List Char) : Nat :=
  cs.foldl (fun acc c => 10 * acc + (c.toNat - 48)) 0

/-- Maximum u64 value (1n << 64n) - 1n from parseU64StringFlag. -/
def U64_MAX : Int := 2 ^ 64 - 1

/-- Function parseU64StringFlag from cli/src/utils/common.ts, on the character
list of its string argument: requires ^\d+$ and a value within u64 range. -/
def parseU64StringFlag (raw : List Char) (flagName : String) : Except String Int :=
  if ¬ (raw ≠ [] ∧ raw.all isDigitChar) then
    Except.error ("Invalid value for --" ++ flagName ++
      ". Expected a non-negative integer but received the raw input")
  else
    let value : Int := digitsToNat raw
    if value > U64_MAX then
      Except.error ("Value for --" ++ flagName ++ " exceeds the maximum u64")
    else Except.ok value

/-- Test of the regex ^\d+(\.\d+)?$ of parsePegPriceFlag: one or more digits,
optionally followed by a dot and one or more digits. -/
def decimalRegexTest (cs : List Char) : Bool :=
  decide (cs.takeWhile isDigitChar ≠ []) &&
    (match cs.dropWhile isDigitChar with
     | [] => true
     | c :: frac => c = '.' && decide (frac ≠ []) && frac.all isDigitChar)

/-- Model of String.prototype.trim on a character list: strip whitespace from
both ends. -/
def trimChars (cs : List Char) : List Char :=
  ((cs.dropWhile Char.isWhitespace).reverse.dropWhile Char.isWhitespace).reverse

/-- Return type of parsePegPriceFlag. -/
structure PegPrice where
  scaledValue : Int
  displayValue : String
deriving DecidableEq, Repr

/-- Function parsePegPriceFlag from the update-config CLI command: trims the
input, checks the decimal regex, splits whole and fractional parts at the
dot, right-pads the fraction to PEG_PRICE_DECIMALS digits, parses the whole
part as a u64, scales, and enforces 0 < scaled < 2 * 10 ^ 4. -/
def parsePegPriceFlag (value : String) : Except String PegPrice :=
  let cs := trimChars value.toList
  if ¬ decimalRegexTest cs then
    Except.error "Invalid value for --peg-price-usd. Provide a positive decimal number (e.g. 1.0000)."
  else
    let whole := cs.takeWhile isDigitChar
    let fraction := (cs.dropWhile isDigitChar).drop 1
    if fraction.length > PEG_PRICE_DECIMALS then
      Except.error "Peg price precision cannot exceed 4 decimal places."
    else
      let paddedFraction :=
        fraction ++ List.replicate (PEG_PRICE_DECIMALS - fraction.length) '0'
      match parseU64StringFlag whole "peg-price-usd" with
      | Except.error e => Except.error e
      | Except.ok wholeValue =>
        let fractionalValue : Int := digitsToNat paddedFraction
        let scalingFactor : Int := 10 ^ PEG_PRICE_DECIMALS
        let scaledValue := wholeValue * scalingFactor + fractionalValue
        if scaledValue ≤ 0 then Except.error "Peg price must be greater than 0"
        else
          let maxPegPrice : Int := 2 * 10 ^ PEG_PRICE_DECIMALS
          if scaledValue ≥ maxPegPrice then
            Except.error "Peg price must be less than 2."
          else
            Except.ok
              { scaledValue := scaledValue,
                displayValue := String.mk whole ++ "." ++ String.mk paddedFraction }

/-! Derived closed forms of the quote computations, read off the same source
lines; they let the success behaviour of getMintQuote / getRedeemQuote be
stated once and reused. -/

/-- LP-token scale 10 ** config.decimals computed by pow10 in mint.ts. -/
def lpScaleOf (c : Config) : Int := 10 ^ c.decimals.toNat

/-- Collateral scale 10 ** vault.decimals computed by pow10 in mint.ts. -/
def vaultScaleOf (v : Vault) : Int := 10 ^ v.decimals.toNat

/-- Fee value computed by computeMintFee inside getMintQuote. -/
def mintFeeOf (input : MintQuoteInput) : Int :=
  ceilBigInt (input.amountIn * input.benefactor.mintFeeRate) BASIS_POINTS

/-- Oracle-valued amount computed by computeOracleAmount inside getMintQuote. -/
def mintOracleAmountOf (input : MintQuoteInput) : Int :=
  Int.tdiv
    (input.amountIn * input.oraclePriceUsd * lpScaleOf input.config * PEG_PRICE_SCALE)
    (input.config.pegPriceUsd * vaultScaleOf input.vault * ORACLE_PRICE_SCALE)

/-- Peg-valued amount computed by computeOneToOneAmount inside getMintQuote. -/
def mintOneToOneAmountOf (input : MintQuoteInput) : Int :=
  Int.tdiv
    ((input.amountIn - mintFeeOf input) * PEG_PRICE_SCALE * lpScaleOf input.config)
    (input.config.pegPriceUsd * vaultScaleOf input.vault)

/-- Quote value returned by getMintQuote on its success path. -/
def mintQuoteOf (input : MintQuoteInput) : MintQuote :=
  { amountIn := input.amountIn
    feeAmount := mintFeeOf input
    netAmount := input.amountIn - mintFeeOf input
    oracleAmount := mintOracleAmountOf input
    oneToOneAmount := mintOneToOneAmountOf input
    mintAmount :=
      if mintOracleAmountOf input < mintOneToOneAmountOf input then
        mintOracleAmountOf input
      else mintOneToOneAmountOf input }

/-- Conjunction of the guard conditions getMintQuote checks on its way to the
success path. -/
def mintOk (input : MintQuoteInput) : Prop :=
  0 < input.amountIn ∧ 0 < input.config.pegPriceUsd ∧ 0 < input.oraclePriceUsd ∧
  input.vault.minOraclePriceUsd *
      10 ^ (ORACLE_PRICE_DECIMALS - PEG_PRICE_DECIMALS) ≤ input.oraclePriceUsd ∧
  0 ≤ input.vault.decimals ∧ 0 ≤ input.config.decimals ∧
  0 ≤ input.benefactor.mintFeeRate ∧ mintFeeOf input ≤ input.amountIn

/-- Fee value computed by computeRedeemFee inside getRedeemQuote. -/
def redeemFeeOf (input : RedeemQuoteInput) : Int :=
  ceilBigInt (input.amountIn * input.benefactor.redeemFeeRate) BASIS_POINTS

/-- Oracle-valued amount computed by computeOracleAmount inside getRedeemQuote. -/
def redeemOracleAmountOf (input : RedeemQuoteInput) : Int :=
  Int.tdiv
    (input.amountIn * input.config.pegPriceUsd * vaultScaleOf input.vault * ORACLE_PRICE_SCALE)
    (input.oraclePriceUsd * lpScaleOf input.config * PEG_PRICE_SCALE)

/-- Peg-valued amount computed by computeOneToOneAmount inside getRedeemQuote. -/
def redeemOneToOneAmountOf (input : RedeemQuoteInput) : Int :=
  Int.tdiv
    ((input.amountIn - redeemFeeOf input) * input.config.pegPriceUsd * vaultScaleOf input.vault)
    (PEG_PRICE_SCALE * lpScaleOf input.config)

/-- Quote value returned by getRedeemQuote on its success path. -/
def redeemQuoteOf (input : RedeemQuoteInput) : RedeemQuote :=
  { amountIn := input.amountIn
    feeAmount := redeemFeeOf input
    netAmount := input.amountIn - redeemFeeOf input
    oracleAmount := redeemOracleAmountOf input
    oneToOneAmount := redeemOneToOneAmountOf input
    redeemAmount :=
      if redeemOracleAmountOf input < redeemOneToOneAmountOf input then
        redeemOracleAmountOf input
      else redeemOneToOneAmountOf input }

/-- Conjunction of the guard conditions getRedeemQuote checks on its way to
the success path; unlike mintOk it bounds the oracle price on both sides. -/
def redeemOk (input : RedeemQuoteInput) : Prop :=
  0 < input.amountIn ∧ 0 < input.config.pegPriceUsd ∧ 0 < input.oraclePriceUsd ∧
  input.vault.minOraclePriceUsd *
      10 ^ (ORACLE_PRICE_DECIMALS - PEG_PRICE_DECIMALS) ≤ input.oraclePriceUsd ∧
  input.oraclePriceUsd ≤
    input.vault.maxOraclePriceUsd * 10 ^ (ORACLE_PRICE_DECIMALS - PEG_PRICE_DECIMALS) ∧
  0 ≤ input.vault.decimals ∧ 0 ≤ input.config.decimals ∧
  0 ≤ input.benefactor.redeemFeeRate ∧ redeemFeeOf input ≤ input.amountIn

/-- Per-operation cap selected by getRemainingCapacity: max-mint-amount for
mint, max-redeem-amount for redeem. -/
def opMaxAmount (operation : PeriodLimitCheckOperation) (limit : PeriodLimit) : Int :=
  match operation with
  | PeriodLimitCheckOperation.mint => limit.maxMintAmount
  | PeriodLimitCheckOperation.redeem => limit.maxRedeemAmount

/-- Per-operation persisted counter selected by getRemainingCapacity. -/
def opUsedAmount (operation : PeriodLimitCheckOperation) (limit : PeriodLimit) : Int :=
  match operation with
  | PeriodLimitCheckOperation.mint => limit.mintedAmount
  | PeriodLimitCheckOperation.redeem => limit.redeemedAmount

/-- Well-formedness condition of a peg-price flag string: the trimmed input
matches the decimal regex and carries at most PEG_PRICE_DECIMALS fractional
digits. -/
def pegInputWellFormed (s : String) : Prop :=
  decimalRegexTest (trimChars s.toList) = true ∧
  (((trimChars s.toList).dropWhile isDigitChar).drop 1).length ≤ PEG_PRICE_DECIMALS

/-- Scaled integer value of a peg-price flag string: whole part times 10 ^ 4
plus the fraction right-padded to 4 digits. -/
def pegScaledOf (s : String) : Int :=
  let cs := trimChars s.toList
  let whole := cs.takeWhile isDigitChar
  let fraction := (cs.dropWhile isDigitChar).drop 1
  (digitsToNat whole : Int) * 10 ^ PEG_PRICE_DECIMALS +
    (digitsToNat (fraction ++ List.replicate (PEG_PRICE_DECIMALS - fraction.length) '0') : Int)

/-- Display string parsePegPriceFlag returns alongside the scaled value. -/
def pegDisplayOf (s : String) : String :=
  let cs := trimChars s.toList
  let whole := cs.takeWhile isDigitChar
  let fraction := (cs.dropWhile isDigitChar).drop 1
  String.mk whole ++ "." ++
    String.mk (fraction ++ List.replicate (PEG_PRICE_DECIMALS - fraction.length) '0')

/-! Concrete instances used by witnesses and counterexamples. -/

/-- Mint input of the worked scenario of the spec: decimals 6 and 6, peg
1.0000, oracle price 1.00000000, fee rate 25 bps, amountIn one billion; the
vault bounds 0.9000 and 1.1000 put the oracle price inside them. -/
def mintInputC3 : MintQuoteInput :=
  { amountIn := 1000000000
    config := { pegPriceUsd := 10000, decimals := 6, periodLimits := [] }
    benefactor := { mintFeeRate := 25, redeemFeeRate := 25, periodLimits := [] }
    vault := { minOraclePriceUsd := 9000, maxOraclePriceUsd := 11000,
               decimals := 6, periodLimits := [] }
    oraclePriceUsd := 100000000 }

/-- Quote getMintQuote returns on mintInputC3. -/
def mintQuoteC3 : MintQuote :=
  { amountIn := 1000000000, feeAmount := 2500000, netAmount := 997500000,
    oracleAmount := 1000000000, oneToOneAmount := 997500000,
    mintAmount := 997500000 }

/-- Redeem input with the same prices, decimals and fee rate as mintInputC3. -/
def redeemInputC3 : RedeemQuoteInput :=
  { amountIn := 1000000000
    config := { pegPriceUsd := 10000, decimals := 6, periodLimits := [] }
    benefactor := { mintFeeRate := 25, redeemFeeRate := 25, periodLimits := [] }
    vault := { minOraclePriceUsd := 9000, maxOraclePriceUsd := 11000,
               decimals := 6, periodLimits := [] }
    oraclePriceUsd := 100000000 }

/-- Mint input with the oracle price 3.0 above the vault maximum 1.1: zero
fee, decimals 0 and 0, peg 1.0000. -/
def mintInputHighOracle : MintQuoteInput :=
  { amountIn := 1000
    config := { pegPriceUsd := 10000, decimals := 0, periodLimits := [] }
    benefactor := { mintFeeRate := 0, redeemFeeRate := 0, periodLimits := [] }
    vault := { minOraclePriceUsd := 9000, maxOraclePriceUsd := 11000,
               decimals := 0, periodLimits := [] }
    oraclePriceUsd := 300000000 }

/-- Redeem input with the same fields as mintInputHighOracle. -/
def redeemInputHighOracle : RedeemQuoteInput :=
  { amountIn := 1000
    config := { pegPriceUsd := 10000, decimals := 0, periodLimits := [] }
    benefactor := { mintFeeRate := 0, redeemFeeRate := 0, periodLimits := [] }
    vault := { minOraclePriceUsd := 9000, maxOraclePriceUsd := 11000,
               decimals := 0, periodLimits := [] }
    oraclePriceUsd := 300000000 }

/-- Mint input with the oracle price below the vault minimum: oracle 0.8000,
minimum 0.9000. -/
def mintInputLowOracle : MintQuoteInput :=
  { amountIn := 1000
    config := { pegPriceUsd := 10000, decimals := 0, periodLimits := [] }
    benefactor := { mintFeeRate := 0, redeemFeeRate := 0, periodLimits := [] }
    vault := { minOraclePriceUsd := 9000, maxOraclePriceUsd := 11000,
               decimals := 0, periodLimits := [] }
    oraclePriceUsd := 80000000 }

/-- Redeem input with the same fields as mintInputLowOracle. -/
def redeemInputLowOracle : RedeemQuoteInput :=
  { amountIn := 1000
    config := { pegPriceUsd := 10000, decimals := 0, periodLimits := [] }
    benefactor := { mintFeeRate := 0, redeemFeeRate := 0, periodLimits := [] }
    vault := { minOraclePriceUsd := 9000, maxOraclePriceUsd := 11000,
               decimals := 0, periodLimits := [] }
    oraclePriceUsd := 80000000 }

/-- Mint input with zero fee, peg 1.0000 and the oracle price exactly the
rescaled peg. -/
def mintInputPegOne : MintQuoteInput :=
  { amountIn := 1000
    config := { pegPriceUsd := 10000, decimals := 0, periodLimits := [] }
    benefactor := { mintFeeRate := 0, redeemFeeRate := 0, periodLimits := [] }
    vault := { minOraclePriceUsd := 9000, maxOraclePriceUsd := 11000,
               decimals := 0, periodLimits := [] }
    oraclePriceUsd := 100000000 }

/-- Mint input with zero fee and the oracle price exactly the rescaled peg,
but a peg of 0.5000 rather than 1.0000. -/
def mintInputPegHalf : MintQuoteInput :=
  { amountIn := 100
    config := { pegPriceUsd := 5000, decimals := 0, periodLimits := [] }
    benefactor := { mintFeeRate := 0, redeemFeeRate := 0, periodLimits := [] }
    vault := { minOraclePriceUsd := 4000, maxOraclePriceUsd := 6000,
               decimals := 0, periodLimits := [] }
    oraclePriceUsd := 50000000 }

/-- Period limit slot of the spec scenario: hour-long window capped at 1000
minted with 900 already used, window started 1800 seconds before the check. -/
def slotSpec : PeriodLimit :=
  { durationSeconds := 3600, maxMintAmount := 1000, maxRedeemAmount := 0,
    mintedAmount := 900, redeemedAmount := 0, windowStart := 8200 }

/-- Period limit slot that any positive mint amount exceeds: cap 100, fresh
window. -/
def slotTight : PeriodLimit :=
  { durationSeconds := 3600, maxMintAmount := 100, maxRedeemAmount := 100,
    mintedAmount := 0, redeemedAmount := 0, windowStart := 0 }

/-- Period-limit check input whose config, vault and benefactor slots are all
exceeded by the requested amount 200. -/
def plInputAllViolated : PeriodLimitCheckInput :=
  { amount := 200
    operation := PeriodLimitCheckOperation.mint
    benefactor := { mintFeeRate := 0, redeemFeeRate := 0, periodLimits := [slotTight] }
    config := { pegPriceUsd := 10000, decimals := 6, periodLimits := [slotTight] }
    vault := { minOraclePriceUsd := 9000, maxOraclePriceUsd := 11000,
               decimals := 6, periodLimits := [slotTight] } }

/-- Period-limit check input whose vault and benefactor slots are exceeded
while the config has no limits. -/
def plInputVaultBenefactor : PeriodLimitCheckInput :=
  { amount := 200
    operation := PeriodLimitCheckOperation.mint
    benefactor := { mintFeeRate := 0, redeemFeeRate := 0, periodLimits := [slotTight] }
    config := { pegPriceUsd := 10000, decimals := 6, periodLimits := [] }
    vault := { minOraclePriceUsd := 9000, maxOraclePriceUsd := 11000,
               decimals := 6, periodLimits := [slotTight] } }

theorem getMintQuote_ok_elim (input : MintQuoteInput) (q : MintQuote)
    (h : getMintQuote input = Except.ok q) : mintOk input ∧ q = mintQuoteOf input := by
  by_cases h1 : input.amountIn ≤ 0
  · simp [getMintQuote, h1] at h
  by_cases h2 : input.config.pegPriceUsd ≤ 0
  · simp [getMintQuote, h1, h2] at h
  by_cases h3 : input.oraclePriceUsd ≤ 0
  · simp [getMintQuote, h1, h2, h3] at h
  by_cases h4 : input.oraclePriceUsd <
      input.vault.minOraclePriceUsd * 10 ^ (ORACLE_PRICE_DECIMALS - PEG_PRICE_DECIMALS)
  · simp [getMintQuote, h1, h2, h3, h4] at h
  by_cases h5 : input.vault.decimals < 0
  · simp [getMintQuote, ensureNonNegativeInteger, h1, h2, h3, h4, h5] at h
  by_cases h6 : input.config.decimals < 0
  · simp [getMintQuote, ensureNonNegativeInteger, h1, h2, h3, h4, h5, h6] at h
  by_cases h7 : input.benefactor.mintFeeRate < 0
  · simp [getMintQuote, ensureNonNegativeInteger, pow10, Mint.computeMintFee,
      h1, h2, h3, h4, h5, h6, h7] at h
  have hp : ¬ input.config.pegPriceUsd = 0 := by omega
  by_cases h8 : ceilBigInt (input.amountIn * input.benefactor.mintFeeRate) BASIS_POINTS >
      input.amountIn
  · simp [getMintQuote, ensureNonNegativeInteger, pow10, Mint.computeMintFee,
      h1, h2, h3, h4, h5, h6, h7, h8] at h
  simp only [getMintQuote, ensureNonNegativeInteger, pow10, Mint.computeMintFee,
    Mint.computeOracleAmount, Mint.computeOneToOneAmount,
    h1, h2, h3, h4, h5, h6, h7, h8, hp, ite_false, if_false, Except.ok.injEq] at h
  refine ⟨⟨by omega, by omega, by omega, by omega, by omega, by omega, by omega, ?_⟩, ?_⟩
  · exact not_lt.mp h8
  · rw [← h]
    simp only [mintQuoteOf, mintOracleAmountOf, mintOneToOneAmountOf, mintFeeOf,
      lpScaleOf, vaultScaleOf]

theorem getMintQuote_ok_intro (input : MintQuoteInput) (hok : mintOk input) :
    getMintQuote input = Except.ok (mintQuoteOf input) := by
  obtain ⟨k1, k2, k3, k4, k5, k6, k7, k8⟩ := hok
  have h1 : ¬ input.amountIn ≤ 0 := by omega
  have h2 : ¬ input.config.pegPriceUsd ≤ 0 := by omega
  have h3 : ¬ input.oraclePriceUsd ≤ 0 := by omega
  have h4 : ¬ input.oraclePriceUsd <
      input.vault.minOraclePriceUsd * 10 ^ (ORACLE_PRICE_DECIMALS - PEG_PRICE_DECIMALS) := by
    omega
  have h5 : ¬ input.vault.decimals < 0 := by omega
  have h6 : ¬ input.config.decimals < 0 := by omega
  have h7 : ¬ input.benefactor.mintFeeRate < 0 := by omega
  have hp : ¬ input.config.pegPriceUsd = 0 := by omega
  have h8 : ¬ ceilBigInt (input.amountIn * input.benefactor.mintFeeRate) BASIS_POINTS >
      input.amountIn := by
    unfold mintFeeOf at k8
    omega
  simp only [getMintQuote, ensureNonNegativeInteger, pow10, Mint.computeMintFee,
    Mint.computeOracleAmount, Mint.computeOneToOneAmount,
    h1, h2, h3, h4, h5, h6, h7, h8, hp, ite_false, if_false, Except.ok.injEq]
  simp only [mintQuoteOf, mintOracleAmountOf, mintOneToOneAmountOf, mintFeeOf,
    lpScaleOf, vaultScaleOf]

theorem getRedeemQuote_ok_elim (input : RedeemQuoteInput) (q : RedeemQuote)
    (h : getRedeemQuote input = Except.ok q) : redeemOk input ∧ q = redeemQuoteOf input := by
  by_cases h1 : input.amountIn ≤ 0
  · simp [getRedeemQuote, h1] at h
  by_cases h2 : input.config.pegPriceUsd ≤ 0
  · simp [getRedeemQuote, h1, h2] at h
  by_cases h3 : input.oraclePriceUsd ≤ 0
  · simp [getRedeemQuote, h1, h2, h3] at h
  by_cases h4 : input.oraclePriceUsd <
      input.vault.minOraclePriceUsd * 10 ^ (ORACLE_PRICE_DECIMALS - PEG_PRICE_DECIMALS) ∨
      input.oraclePriceUsd >
        input.vault.maxOraclePriceUsd * 10 ^ (ORACLE_PRICE_DECIMALS - PEG_PRICE_DECIMALS)
  · simp only [getRedeemQuote, h1, h2, h3, h4, ite_false, if_false, if_true, ite_true,
      if_pos, eq_self_iff_true] at h
    exact Except.noConfusion h
  by_cases h5 : input.vault.decimals < 0
  · simp [getRedeemQuote, ensureNonNegativeInteger, h1, h2, h3, h4, h5] at h
  by_cases h6 : input.config.decimals < 0
  · simp [getRedeemQuote, ensureNonNegativeInteger, h1, h2, h3, h4, h5, h6] at h
  by_cases h7 : input.benefactor.redeemFeeRate < 0
  · simp [getRedeemQuote, ensureNonNegativeInteger, pow10, Redeem.computeRedeemFee,
      h1, h2, h3, h4, h5, h6, h7] at h
  have hp : ¬ input.config.pegPriceUsd = 0 := by omega
  have ho : ¬ input.oraclePriceUsd = 0 := by omega
  by_cases h8 : ceilBigInt (input.amountIn * input.benefactor.redeemFeeRate) BASIS_POINTS >
      input.amountIn
  · simp [getRedeemQuote, ensureNonNegativeInteger, pow10, Redeem.computeRedeemFee,
      h1, h2, h3, h4, h5, h6, h7, h8] at h
  simp only [getRedeemQuote, ensureNonNegativeInteger, pow10, Redeem.computeRedeemFee,
    Redeem.computeOracleAmount, Redeem.computeOneToOneAmount,
    h1, h2, h3, h4, h5, h6, h7, h8, hp, ho, ite_false, if_false, Except.ok.injEq] at h
  push_neg at h4
  refine ⟨⟨by omega, by omega, by omega, by omega, by omega, by omega, by omega,
    by omega, not_lt.mp h8⟩, ?_⟩
  rw [← h]
  simp only [redeemQuoteOf, redeemOracleAmountOf, redeemOneToOneAmountOf, redeemFeeOf,
    lpScaleOf, vaultScaleOf]

theorem getRedeemQuote_ok_intro (input : RedeemQuoteInput) (hok : redeemOk input) :
    getRedeemQuote input = Except.ok (redeemQuoteOf input) := by
  obtain ⟨k1, k2, k3, k4, k4b, k5, k6, k7, k8⟩ := hok
  have h1 : ¬ input.amountIn ≤ 0 := by omega
  have h2 : ¬ input.config.pegPriceUsd ≤ 0 := by omega
  have h3 : ¬ input.oraclePriceUsd ≤ 0 := by omega
  have h4 : ¬ (input.oraclePriceUsd <
      input.vault.minOraclePriceUsd * 10 ^ (ORACLE_PRICE_DECIMALS - PEG_PRICE_DECIMALS) ∨
      input.oraclePriceUsd >
        input.vault.maxOraclePriceUsd * 10 ^ (ORACLE_PRICE_DECIMALS - PEG_PRICE_DECIMALS)) := by
    push_neg
    omega
  have h5 : ¬ input.vault.decimals < 0 := by omega
  have h6 : ¬ input.config.decimals < 0 := by omega
  have h7 : ¬ input.benefactor.redeemFeeRate < 0 := by omega
  have hp : ¬ input.config.pegPriceUsd = 0 := by omega
  have ho : ¬ input.oraclePriceUsd = 0 := by omega
  have h8 : ¬ ceilBigInt (input.amountIn * input.benefactor.redeemFeeRate) BASIS_POINTS >
      input.amountIn := by
    unfold redeemFeeOf at k8
    omega
  simp only [getRedeemQuote, ensureNonNegativeInteger, pow10, Redeem.computeRedeemFee,
    Redeem.computeOracleAmount, Redeem.computeOneToOneAmount,
    h1, h2, h3, h4, h5, h6, h7, h8, hp, ho, ite_false, if_false, Except.ok.injEq]
  simp only [redeemQuoteOf, redeemOracleAmountOf, redeemOneToOneAmountOf, redeemFeeOf,
    lpScaleOf, vaultScaleOf]

theorem ceil_rat_div_basisPoints (m z : Int) (k1 : (z - 1) * 10000 < m)
    (k2 : m ≤ z * 10000) : ⌈(m : ℚ) / 10000⌉ = z := by
  rw [Int.ceil_eq_iff]
  constructor
  · rw [lt_div_iff₀ (by norm_num : (0 : ℚ) < 10000)]
    exact_mod_cast k1
  · rw [div_le_iff₀ (by norm_num : (0 : ℚ) < 10000)]
    exact_mod_cast k2

theorem ceilBigInt_basisPoints_eq_ceil (m : Int) (hm : 0 ≤ m) :
    ceilBigInt m BASIS_POINTS = ⌈(m : ℚ) / 10000⌉ := by
  have hb : (0 : Int) ≤ 10000 := by norm_num
  unfold ceilBigInt BASIS_POINTS
  rw [Int.tdiv_eq_ediv hm hb, Int.tmod_eq_emod hm hb]
  refine (ceil_rat_div_basisPoints m _ ?_ ?_).symm
  · split <;> omega
  · split <;> omega

theorem ceilBigInt_basisPoints_le (a r : Int) (ha : 0 ≤ a) (hr0 : 0 ≤ r)
    (hr : r ≤ 10000) : ceilBigInt (a * r) BASIS_POINTS ≤ a := by
  have hm0 : 0 ≤ a * r := mul_nonneg ha hr0
  have hle : a * r ≤ 10000 * a := by nlinarith
  unfold ceilBigInt BASIS_POINTS
  rw [Int.tdiv_eq_ediv hm0 (by norm_num), Int.tmod_eq_emod hm0 (by norm_num)]
  generalize a * r = m at hm0 hle
  split <;> omega

theorem ceilBigInt_basisPoints_at_cap (a : Int) (ha : 0 ≤ a) :
    ceilBigInt (a * 10000) BASIS_POINTS = a := by
  have hm0 : 0 ≤ a * 10000 := mul_nonneg ha (by norm_num)
  unfold ceilBigInt BASIS_POINTS
  rw [Int.tdiv_eq_ediv hm0 (by norm_num), Int.tmod_eq_emod hm0 (by norm_num)]
  split <;> omega

theorem getMintQuote_feeError_elim (input : MintQuoteInput)
    (h : getMintQuote input = Except.error "Mint fee exceeds the provided amount") :
    0 < input.amountIn ∧ 0 ≤ input.benefactor.mintFeeRate ∧
      input.amountIn < mintFeeOf input := by
  by_cases h1 : input.amountIn ≤ 0
  · simp [getMintQuote, h1] at h
  by_cases h2 : input.config.pegPriceUsd ≤ 0
  · simp [getMintQuote, h1, h2] at h
  by_cases h3 : input.oraclePriceUsd ≤ 0
  · simp [getMintQuote, h1, h2, h3] at h
  by_cases h4 : input.oraclePriceUsd <
      input.vault.minOraclePriceUsd * 10 ^ (ORACLE_PRICE_DECIMALS - PEG_PRICE_DECIMALS)
  · simp [getMintQuote, h1, h2, h3, h4] at h
  by_cases h5 : input.vault.decimals < 0
  · simp [getMintQuote, ensureNonNegativeInteger, h1, h2, h3, h4, h5] at h
  by_cases h6 : input.config.decimals < 0
  · simp [getMintQuote, ensureNonNegativeInteger, h1, h2, h3, h4, h5, h6] at h
  by_cases h7 : input.benefactor.mintFeeRate < 0
  · simp [getMintQuote, ensureNonNegativeInteger, pow10, Mint.computeMintFee,
      h1, h2, h3, h4, h5, h6, h7] at h
  by_cases h8 : ceilBigInt (input.amountIn * input.benefactor.mintFeeRate) BASIS_POINTS >
      input.amountIn
  · refine ⟨by omega, by omega, ?_⟩
    unfold mintFeeOf
    omega
  · have hp : ¬ input.config.pegPriceUsd = 0 := by omega
    simp [getMintQuote, ensureNonNegativeInteger, pow10, Mint.computeMintFee,
      Mint.computeOracleAmount, Mint.computeOneToOneAmount,
      h1, h2, h3, h4, h5, h6, h7, h8, hp] at h

theorem getRedeemQuote_feeError_elim (input : RedeemQuoteInput)
    (h : getRedeemQuote input = Except.error "Redeem fee exceeds the provided amount") :
    0 < input.amountIn ∧ 0 ≤ input.benefactor.redeemFeeRate ∧
      input.amountIn < redeemFeeOf input := by
  by_cases h1 : input.amountIn ≤ 0
  · simp [getRedeemQuote, h1] at h
  by_cases h2 : input.config.pegPriceUsd ≤ 0
  · simp [getRedeemQuote, h1, h2] at h
  by_cases h3 : input.oraclePriceUsd ≤ 0
  · simp [getRedeemQuote, h1, h2, h3] at h
  by_cases h4 : input.oraclePriceUsd <
      input.vault.minOraclePriceUsd * 10 ^ (ORACLE_PRICE_DECIMALS - PEG_PRICE_DECIMALS) ∨
      input.oraclePriceUsd >
        input.vault.maxOraclePriceUsd * 10 ^ (ORACLE_PRICE_DECIMALS - PEG_PRICE_DECIMALS)
  · simp only [getRedeemQuote, h4, ite_true, if_true] at h
    rw [if_neg h1, if_neg h2, if_neg h3] at h
    simp at h
  by_cases h5 : input.vault.decimals < 0
  · simp [getRedeemQuote, ensureNonNegativeInteger, h1, h2, h3, h4, h5] at h
  by_cases h6 : input.config.decimals < 0
  · simp [getRedeemQuote, ensureNonNegativeInteger, h1, h2, h3, h4, h5, h6] at h
  by_cases h7 : input.benefactor.redeemFeeRate < 0
  · simp [getRedeemQuote, ensureNonNegativeInteger, pow10, Redeem.computeRedeemFee,
      h1, h2, h3, h4, h5, h6, h7] at h
  by_cases h8 : ceilBigInt (input.amountIn * input.benefactor.redeemFeeRate) BASIS_POINTS >
      input.amountIn
  · refine ⟨by omega, by omega, ?_⟩
    unfold redeemFeeOf
    omega
  · have hp : ¬ input.config.pegPriceUsd = 0 := by omega
    have ho : ¬ input.oraclePriceUsd = 0 := by omega
    simp [getRedeemQuote, ensureNonNegativeInteger, pow10, Redeem.computeRedeemFee,
      Redeem.computeOracleAmount, Redeem.computeOneToOneAmount,
      h1, h2, h3, h4, h5, h6, h7, h8, hp, ho] at h

theorem getMintQuote_boundsError_iff (input : MintQuoteInput)
    (k1 : 0 < input.amountIn) (k2 : 0 < input.config.pegPriceUsd)
    (k3 : 0 < input.oraclePriceUsd) :
    getMintQuote input = Except.error "oraclePriceUsd is outside of the vault configured bounds" ↔
      input.oraclePriceUsd <
        input.vault.minOraclePriceUsd * 10 ^ (ORACLE_PRICE_DECIMALS - PEG_PRICE_DECIMALS) := by
  have h1 : ¬ input.amountIn ≤ 0 := by omega
  have h2 : ¬ input.config.pegPriceUsd ≤ 0 := by omega
  have h3 : ¬ input.oraclePriceUsd ≤ 0 := by omega
  constructor
  · intro h
    by_cases h4 : input.oraclePriceUsd <
        input.vault.minOraclePriceUsd * 10 ^ (ORACLE_PRICE_DECIMALS - PEG_PRICE_DECIMALS)
    · exact h4
    by_cases h5 : input.vault.decimals < 0
    · simp [getMintQuote, ensureNonNegativeInteger, h1, h2, h3, h4, h5] at h
    by_cases h6 : input.config.decimals < 0
    · simp [getMintQuote, ensureNonNegativeInteger, h1, h2, h3, h4, h5, h6] at h
    by_cases h7 : input.benefactor.mintFeeRate < 0
    · simp [getMintQuote, ensureNonNegativeInteger, pow10, Mint.computeMintFee,
        h1, h2, h3, h4, h5, h6, h7] at h
    by_cases h8 : ceilBigInt (input.amountIn * input.benefactor.mintFeeRate) BASIS_POINTS >
        input.amountIn
    · simp [getMintQuote, ensureNonNegativeInteger, pow10, Mint.computeMintFee,
        h1, h2, h3, h4, h5, h6, h7, h8] at h
    · have hp : ¬ input.config.pegPriceUsd = 0 := by omega
      simp [getMintQuote, ensureNonNegativeInteger, pow10, Mint.computeMintFee,
        Mint.computeOracleAmount, Mint.computeOneToOneAmount,
        h1, h2, h3, h4, h5, h6, h7, h8, hp] at h
  · intro h4
    simp [getMintQuote, h1, h2, h3, h4]

theorem getRedeemQuote_boundsError_iff (input : RedeemQuoteInput)
    (k1 : 0 < input.amountIn) (k2 : 0 < input.config.pegPriceUsd)
    (k3 : 0 < input.oraclePriceUsd) :
    getRedeemQuote input = Except.error "oraclePriceUsd is outside of the vault configured bounds" ↔
      (input.oraclePriceUsd <
        input.vault.minOraclePriceUsd * 10 ^ (ORACLE_PRICE_DECIMALS - PEG_PRICE_DECIMALS) ∨
       input.vault.maxOraclePriceUsd * 10 ^ (ORACLE_PRICE_DECIMALS - PEG_PRICE_DECIMALS) <
        input.oraclePriceUsd) := by
  have h1 : ¬ input.amountIn ≤ 0 := by omega
  have h2 : ¬ input.config.pegPriceUsd ≤ 0 := by omega
  have h3 : ¬ input.oraclePriceUsd ≤ 0 := by omega
  constructor
  · intro h
    by_cases h4 : input.oraclePriceUsd <
        input.vault.minOraclePriceUsd * 10 ^ (ORACLE_PRICE_DECIMALS - PEG_PRICE_DECIMALS) ∨
        input.oraclePriceUsd >
          input.vault.maxOraclePriceUsd * 10 ^ (ORACLE_PRICE_DECIMALS - PEG_PRICE_DECIMALS)
    · omega
    by_cases h5 : input.vault.decimals < 0
    · simp [getRedeemQuote, ensureNonNegativeInteger, h1, h2, h3, h4, h5] at h
    by_cases h6 : input.config.decimals < 0
    · simp [getRedeemQuote, ensureNonNegativeInteger, h1, h2, h3, h4, h5, h6] at h
    by_cases h7 : input.benefactor.redeemFeeRate < 0
    · simp [getRedeemQuote, ensureNonNegativeInteger, pow10, Redeem.computeRedeemFee,
        h1, h2, h3, h4, h5, h6, h7] at h
    by_cases h8 : ceilBigInt (input.amountIn * input.benefactor.redeemFeeRate) BASIS_POINTS >
        input.amountIn
    · simp [getRedeemQuote, ensureNonNegativeInteger, pow10, Redeem.computeRedeemFee,
        h1, h2, h3, h4, h5, h6, h7, h8] at h
    · have hp : ¬ input.config.pegPriceUsd = 0 := by omega
      have ho : ¬ input.oraclePriceUsd = 0 := by omega
      simp [getRedeemQuote, ensureNonNegativeInteger, pow10, Redeem.computeRedeemFee,
        Redeem.computeOracleAmount, Redeem.computeOneToOneAmount,
        h1, h2, h3, h4, h5, h6, h7, h8, hp, ho] at h
  · intro h4
    have h4a : input.oraclePriceUsd <
        input.vault.minOraclePriceUsd * 10 ^ (ORACLE_PRICE_DECIMALS - PEG_PRICE_DECIMALS) ∨
        input.oraclePriceUsd >
          input.vault.maxOraclePriceUsd * 10 ^ (ORACLE_PRICE_DECIMALS - PEG_PRICE_DECIMALS) := by
      omega
    simp [getRedeemQuote, h1, h2, h3, h4a]

/-- C1: for every input on which getMintQuote succeeds, mintAmount equals
min(oracleAmount, oneToOneAmount) of the same quote, and for every input on
which getRedeemQuote succeeds, redeemAmount equals
min(oracleAmount, oneToOneAmount) of the same quote. -/
theorem quote_output_is_min_of_valuations :
    (∀ (input : MintQuoteInput) (q : MintQuote), getMintQuote input = Except.ok q →
      q.mintAmount = min q.oracleAmount q.oneToOneAmount) ∧
    (∀ (input : RedeemQuoteInput) (q : RedeemQuote), getRedeemQuote input = Except.ok q →
      q.redeemAmount = min q.oracleAmount q.oneToOneAmount) := by
  constructor
  · intro input q h
    obtain ⟨-, rfl⟩ := getMintQuote_ok_elim input q h
    simp only [mintQuoteOf]
    split <;> omega
  · intro input q h
    obtain ⟨-, rfl⟩ := getRedeemQuote_ok_elim input q h
    simp only [redeemQuoteOf]
    split <;> omega

/-- Witness for C1 at the concrete spec scenario for mint and the analogous
redeem input. -/
theorem quote_output_is_min_of_valuations_witness :
    mintQuoteC3.mintAmount = min mintQuoteC3.oracleAmount mintQuoteC3.oneToOneAmount ∧
    (redeemQuoteOf redeemInputC3).redeemAmount =
      min (redeemQuoteOf redeemInputC3).oracleAmount
        (redeemQuoteOf redeemInputC3).oneToOneAmount :=
  ⟨quote_output_is_min_of_valuations.1 mintInputC3 mintQuoteC3 (by decide),
   quote_output_is_min_of_valuations.2 redeemInputC3 (redeemQuoteOf redeemInputC3) (by decide)⟩

/-- C2 counterexample: at the spec scenario input, getMintQuote succeeds with
oracleAmount 10^9, while the claimed formula with 10^8 in the numerator gives
10^13; the two differ. -/
theorem mint_oracleAmount_claimed_formula_fails :
    (getMintQuote mintInputC3).map MintQuote.oracleAmount = Except.ok 1000000000 ∧
    Int.fdiv
      (mintInputC3.amountIn * mintInputC3.oraclePriceUsd * lpScaleOf mintInputC3.config *
        (10 : Int) ^ (8 : Nat))
      (mintInputC3.config.pegPriceUsd * vaultScaleOf mintInputC3.vault *
        (10 : Int) ^ (8 : Nat)) = 10000000000000 ∧
    (1000000000 : Int) ≠ 10000000000000 := by
  refine ⟨by decide, by decide, by decide⟩

/-- C2 (amended): for every input on which getMintQuote succeeds, the
returned oracleAmount equals
floor(amountIn × oraclePriceUsd × lpScale × 10^4 / (pegPriceUsd × vaultScale × 10^8)),
with lpScale = 10^config.decimals and vaultScale = 10^vault.decimals — the
factor the numerator carries is the peg-price scale 10^4, not 10^8. -/
theorem mint_oracleAmount_floor_formula (input : MintQuoteInput) (q : MintQuote)
    (h : getMintQuote input = Except.ok q) :
    q.oracleAmount =
      Int.fdiv
        (input.amountIn * input.oraclePriceUsd * lpScaleOf input.config * PEG_PRICE_SCALE)
        (input.config.pegPriceUsd * vaultScaleOf input.vault * ORACLE_PRICE_SCALE) := by
  obtain ⟨⟨k1, k2, k3, -, -, -, -, -⟩, rfl⟩ := getMintQuote_ok_elim input q h
  have hlp : (0 : Int) ≤ lpScaleOf input.config := by
    unfold lpScaleOf
    positivity
  have hvs : (0 : Int) ≤ vaultScaleOf input.vault := by
    unfold vaultScaleOf
    positivity
  have hnum : 0 ≤ input.amountIn * input.oraclePriceUsd * lpScaleOf input.config *
      PEG_PRICE_SCALE :=
    mul_nonneg (mul_nonneg (mul_nonneg k1.le k3.le) hlp) (by decide)
  have hden : 0 ≤ input.config.pegPriceUsd * vaultScaleOf input.vault * ORACLE_PRICE_SCALE :=
    mul_nonneg (mul_nonneg k2.le hvs) (by decide)
  simp only [mintQuoteOf, mintOracleAmountOf]
  rw [Int.fdiv_eq_tdiv hnum hden]

/-- Witness for the amended C2 at the concrete spec scenario input. -/
theorem mint_oracleAmount_floor_formula_witness :
    mintQuoteC3.oracleAmount =
      Int.fdiv
        (mintInputC3.amountIn * mintInputC3.oraclePriceUsd * lpScaleOf mintInputC3.config *
          PEG_PRICE_SCALE)
        (mintInputC3.config.pegPriceUsd * vaultScaleOf mintInputC3.vault *
          ORACLE_PRICE_SCALE) :=
  mint_oracleAmount_floor_formula mintInputC3 mintQuoteC3 (by decide)

/-- C3: on the spec worked scenario (decimals 6 and 6, peg 10000, oracle
price 100000000 within the vault bounds, fee rate 25, amountIn 10^9),
getMintQuote succeeds with feeAmount 2500000, netAmount 997500000,
oracleAmount 1000000000, oneToOneAmount 997500000 and mintAmount 997500000. -/
theorem mint_quote_spec_scenario : getMintQuote mintInputC3 = Except.ok mintQuoteC3 := by
  decide

/-- C6: for amounts a ≥ 0 and fee rates 0 ≤ r ≤ 10000, both fee computations
return exactly ceil(a × r / 10000), the fee never exceeds a, r = 10000 makes
the fee exactly a and the netAmount of any successful quote 0, and the
fee-exceeds-amount error branch of either quote function is unreachable. -/
theorem fee_ceiling_bounded (a r : Int) (ha : 0 ≤ a) (hr0 : 0 ≤ r) (hr : r ≤ 10000) :
    Mint.computeMintFee a r = Except.ok ⌈((a * r : Int) : ℚ) / 10000⌉ ∧
    Redeem.computeRedeemFee a r = Except.ok ⌈((a * r : Int) : ℚ) / 10000⌉ ∧
    ⌈((a * r : Int) : ℚ) / 10000⌉ ≤ a ∧
    (r = 10000 → ⌈((a * r : Int) : ℚ) / 10000⌉ = a) ∧
    (∀ (input : MintQuoteInput) (q : MintQuote), input.benefactor.mintFeeRate = 10000 →
      getMintQuote input = Except.ok q → q.netAmount = 0) ∧
    (∀ input : MintQuoteInput, input.benefactor.mintFeeRate = r →
      getMintQuote input ≠ Except.error "Mint fee exceeds the provided amount") ∧
    (∀ (input : RedeemQuoteInput) (q : RedeemQuote), input.benefactor.redeemFeeRate = 10000 →
      getRedeemQuote input = Except.ok q → q.netAmount = 0) ∧
    (∀ input : RedeemQuoteInput, input.benefactor.redeemFeeRate = r →
      getRedeemQuote input ≠ Except.error "Redeem fee exceeds the provided amount") := by
  have hceil := ceilBigInt_basisPoints_eq_ceil (a * r) (mul_nonneg ha hr0)
  have hnr : ¬ r < 0 := not_lt.mpr hr0
  refine ⟨?_, ?_, ?_, ?_, ?_, ?_, ?_, ?_⟩
  · simp only [Mint.computeMintFee, hnr, ite_false, if_false]
    rw [hceil]
  · simp only [Redeem.computeRedeemFee, hnr, ite_false, if_false]
    rw [hceil]
  · rw [← hceil]
    exact ceilBigInt_basisPoints_le a r ha hr0 hr
  · intro hcap
    subst hcap
    rw [← hceil]
    exact ceilBigInt_basisPoints_at_cap a ha
  · intro input q hrate h
    obtain ⟨⟨k1, -, -, -, -, -, -, -⟩, rfl⟩ := getMintQuote_ok_elim input q h
    simp only [mintQuoteOf]
    unfold mintFeeOf
    rw [hrate, ceilBigInt_basisPoints_at_cap input.amountIn k1.le, sub_self]
  · intro input hrate h
    obtain ⟨f1, f2, f3⟩ := getMintQuote_feeError_elim input h
    unfold mintFeeOf at f3
    rw [hrate] at f3
    have hle := ceilBigInt_basisPoints_le input.amountIn r f1.le (hrate ▸ f2) hr
    omega
  · intro input q hrate h
    obtain ⟨⟨k1, -, -, -, -, -, -, -, -⟩, rfl⟩ := getRedeemQuote_ok_elim input q h
    simp only [redeemQuoteOf]
    unfold redeemFeeOf
    rw [hrate, ceilBigInt_basisPoints_at_cap input.amountIn k1.le, sub_self]
  · intro input hrate h
    obtain ⟨f1, f2, f3⟩ := getRedeemQuote_feeError_elim input h
    unfold redeemFeeOf at f3
    rw [hrate] at f3
    have hle := ceilBigInt_basisPoints_le input.amountIn r f1.le (hrate ▸ f2) hr
    omega

/-- Witness for C6 at a = 7, r = 9999, plus the cap boundary r = 10000 at the
scenario amount. -/
theorem fee_ceiling_bounded_witness :
    Mint.computeMintFee 7 9999 = Except.ok ⌈((7 * 9999 : Int) : ℚ) / 10000⌉ ∧
    ⌈((7 * 9999 : Int) : ℚ) / 10000⌉ ≤ 7 ∧
    ⌈((7 * 10000 : Int) : ℚ) / 10000⌉ = 7 :=
  ⟨(fee_ceiling_bounded 7 9999 (by norm_num) (by norm_num) (by norm_num)).1,
   (fee_ceiling_bounded 7 9999 (by norm_num) (by norm_num) (by norm_num)).2.2.1,
   (fee_ceiling_bounded 7 10000 (by norm_num) (by norm_num) (by norm_num)).2.2.2.1 rfl⟩

/-- C7: under positive amount, peg and oracle price, getMintQuote fails with
the oracle-bounds error exactly when the oracle price is strictly below the
rescaled vault minimum (no upper bound), getRedeemQuote fails with it exactly
when the price is below the rescaled minimum or above the rescaled maximum,
and on a shared price above the rescaled maximum getMintQuote succeeds while
getRedeemQuote fails. -/
theorem oracle_bounds_asymmetry :
    (∀ input : MintQuoteInput, 0 < input.amountIn → 0 < input.config.pegPriceUsd →
      0 < input.oraclePriceUsd →
      (getMintQuote input =
          Except.error "oraclePriceUsd is outside of the vault configured bounds" ↔
        input.oraclePriceUsd <
          input.vault.minOraclePriceUsd * 10 ^ (ORACLE_PRICE_DECIMALS - PEG_PRICE_DECIMALS))) ∧
    (∀ input : RedeemQuoteInput, 0 < input.amountIn → 0 < input.config.pegPriceUsd →
      0 < input.oraclePriceUsd →
      (getRedeemQuote input =
          Except.error "oraclePriceUsd is outside of the vault configured bounds" ↔
        (input.oraclePriceUsd <
          input.vault.minOraclePriceUsd * 10 ^ (ORACLE_PRICE_DECIMALS - PEG_PRICE_DECIMALS) ∨
         input.vault.maxOraclePriceUsd * 10 ^ (ORACLE_PRICE_DECIMALS - PEG_PRICE_DECIMALS) <
          input.oraclePriceUsd))) ∧
    mintInputHighOracle.vault.maxOraclePriceUsd *
        10 ^ (ORACLE_PRICE_DECIMALS - PEG_PRICE_DECIMALS) <
      mintInputHighOracle.oraclePriceUsd ∧
    mintInputHighOracle.oraclePriceUsd = redeemInputHighOracle.oraclePriceUsd ∧
    getMintQuote mintInputHighOracle = Except.ok (mintQuoteOf mintInputHighOracle) ∧
    getRedeemQuote redeemInputHighOracle =
      Except.error "oraclePriceUsd is outside of the vault configured bounds" := by
  refine ⟨?_, ?_, by decide, by decide, by decide, by decide⟩
  · intro input k1 k2 k3
    exact getMintQuote_boundsError_iff input k1 k2 k3
  · intro input k1 k2 k3
    exact getRedeemQuote_boundsError_iff input k1 k2 k3

/-- Witness for C7 at a concrete input whose oracle price is below the
rescaled vault minimum. -/
theorem oracle_bounds_asymmetry_witness :
    getMintQuote mintInputLowOracle =
      Except.error "oraclePriceUsd is outside of the vault configured bounds" ∧
    getRedeemQuote redeemInputLowOracle =
      Except.error "oraclePriceUsd is outside of the vault configured bounds" :=
  ⟨(oracle_bounds_asymmetry.1 mintInputLowOracle (by decide) (by decide) (by decide)).2
      (by decide),
   (oracle_bounds_asymmetry.2.1 redeemInputLowOracle (by decide) (by decide) (by decide)).2
      (by decide)⟩

/-- C9 counterexample: with zero fee, peg 0.5000 and oracle price exactly the
rescaled peg, the successful mint quote has oracleAmount 100 and
oneToOneAmount 200, which differ by more than one unit; with the nonzero fee
of the spec scenario (peg 1.0000, oracle exactly the rescaled peg) they
differ by 2500000. -/
theorem mint_valuations_at_peg_diverge :
    mintInputPegHalf.oraclePriceUsd =
      mintInputPegHalf.config.pegPriceUsd *
        10 ^ (ORACLE_PRICE_DECIMALS - PEG_PRICE_DECIMALS) ∧
    (getMintQuote mintInputPegHalf).map
      (fun q => (q.oracleAmount, q.oneToOneAmount)) = Except.ok (100, 200) ∧
    ¬ ((100 : Int) - 200).natAbs ≤ 1 ∧
    mintInputC3.oraclePriceUsd =
      mintInputC3.config.pegPriceUsd * 10 ^ (ORACLE_PRICE_DECIMALS - PEG_PRICE_DECIMALS) ∧
    (getMintQuote mintInputC3).map
      (fun q => (q.oracleAmount, q.oneToOneAmount)) = Except.ok (1000000000, 997500000) ∧
    ¬ ((1000000000 : Int) - 997500000).natAbs ≤ 1 := by
  refine ⟨by decide, by decide, by decide, by decide, by decide, by decide⟩

/-- C9 (amended): for every successful mint quote with zero mint fee, a peg
price of exactly 1.0000 (scaled 10^4) and an oracle price exactly the peg
rescaled to 8 decimals, oracleAmount and oneToOneAmount are equal, so they
differ by at most one unit. -/
theorem mint_valuations_agree_at_exact_peg (input : MintQuoteInput) (q : MintQuote)
    (h : getMintQuote input = Except.ok q)
    (hfee : input.benefactor.mintFeeRate = 0)
    (hpeg : input.config.pegPriceUsd = PEG_PRICE_SCALE)
    (hor : input.oraclePriceUsd =
      input.config.pegPriceUsd * 10 ^ (ORACLE_PRICE_DECIMALS - PEG_PRICE_DECIMALS)) :
    q.oracleAmount = q.oneToOneAmount := by
  obtain ⟨⟨k1, -, -, -, -, -, -, -⟩, rfl⟩ := getMintQuote_ok_elim input q h
  have hfee0 : mintFeeOf input = 0 := by
    unfold mintFeeOf ceilBigInt BASIS_POINTS
    rw [hfee, mul_zero]
    decide
  have hL : (0 : Int) ≤ lpScaleOf input.config := by
    unfold lpScaleOf
    positivity
  have hV : (0 : Int) ≤ vaultScaleOf input.vault := by
    unfold vaultScaleOf
    positivity
  simp only [mintQuoteOf, mintOracleAmountOf, mintOneToOneAmountOf, hfee0, sub_zero]
  rw [hor, hpeg]
  rw [show PEG_PRICE_SCALE = (10000 : Int) from by decide,
    show ORACLE_PRICE_SCALE = (100000000 : Int) from by decide,
    show (10 : Int) ^ (ORACLE_PRICE_DECIMALS - PEG_PRICE_DECIMALS) = 10000 from by decide]
  rw [show input.amountIn * ((10000 : Int) * 10000) * lpScaleOf input.config * 10000 =
      input.amountIn * 10000 * lpScaleOf input.config * 100000000 from by ring]
  rw [show (10000 : Int) * vaultScaleOf input.vault * 100000000 =
      10000 * vaultScaleOf input.vault * 100000000 from by ring]
  have hn2 : 0 ≤ input.amountIn * 10000 * lpScaleOf input.config :=
    mul_nonneg (mul_nonneg k1.le (by norm_num)) hL
  have hd2 : 0 ≤ (10000 : Int) * vaultScaleOf input.vault :=
    mul_nonneg (by norm_num) hV
  rw [Int.tdiv_eq_ediv (mul_nonneg hn2 (by norm_num)) (mul_nonneg hd2 (by norm_num)),
    Int.tdiv_eq_ediv hn2 hd2]
  exact Int.mul_ediv_mul_of_pos_left _ _ (by norm_num)

/-- Witness for the amended C9 at a zero-fee variant of the spec scenario. -/
theorem mint_valuations_agree_at_exact_peg_witness :
    (mintQuoteOf mintInputPegOne).oracleAmount =
      (mintQuoteOf mintInputPegOne).oneToOneAmount :=
  mint_valuations_agree_at_exact_peg mintInputPegOne
    (mintQuoteOf mintInputPegOne) (by decide) (by decide) (by decide) (by decide)

/-- C10: for every input on which getRedeemQuote succeeds, oracleAmount is
floor(amountIn × pegPriceUsd × vaultScale × 10^8 / (oraclePriceUsd × lpScale × 10^4))
and oneToOneAmount is
floor(netAmount × pegPriceUsd × vaultScale / (10^4 × lpScale)): the redeem
direction divides by the oracle price and multiplies by the peg price. -/
theorem redeem_inverse_conversion (input : RedeemQuoteInput) (q : RedeemQuote)
    (h : getRedeemQuote input = Except.ok q) :
    q.oracleAmount =
      Int.fdiv
        (input.amountIn * input.config.pegPriceUsd * vaultScaleOf input.vault *
          ORACLE_PRICE_SCALE)
        (input.oraclePriceUsd * lpScaleOf input.config * PEG_PRICE_SCALE) ∧
    q.oneToOneAmount =
      Int.fdiv (q.netAmount * input.config.pegPriceUsd * vaultScaleOf input.vault)
        (PEG_PRICE_SCALE * lpScaleOf input.config) := by
  obtain ⟨⟨k1, k2, k3, -, -, -, -, -, k9⟩, rfl⟩ := getRedeemQuote_ok_elim input q h
  have hL : (0 : Int) ≤ lpScaleOf input.config := by
    unfold lpScaleOf
    positivity
  have hV : (0 : Int) ≤ vaultScaleOf input.vault := by
    unfold vaultScaleOf
    positivity
  constructor
  · have hnum : 0 ≤ input.amountIn * input.config.pegPriceUsd * vaultScaleOf input.vault *
        ORACLE_PRICE_SCALE :=
      mul_nonneg (mul_nonneg (mul_nonneg k1.le k2.le) hV) (by decide)
    have hden : 0 ≤ input.oraclePriceUsd * lpScaleOf input.config * PEG_PRICE_SCALE :=
      mul_nonneg (mul_nonneg k3.le hL) (by decide)
    simp only [redeemQuoteOf, redeemOracleAmountOf]
    rw [Int.fdiv_eq_tdiv hnum hden]
  · have hnet : 0 ≤ input.amountIn - redeemFeeOf input := sub_nonneg.mpr k9
    have hnum : 0 ≤ (input.amountIn - redeemFeeOf input) * input.config.pegPriceUsd *
        vaultScaleOf input.vault :=
      mul_nonneg (mul_nonneg hnet k2.le) hV
    have hden : 0 ≤ PEG_PRICE_SCALE * lpScaleOf input.config :=
      mul_nonneg (by decide) hL
    simp only [redeemQuoteOf, redeemOneToOneAmountOf]
    rw [Int.fdiv_eq_tdiv hnum hden]

/-- Witness for C10 at the concrete redeem scenario input. -/
theorem redeem_inverse_conversion_witness :
    (redeemQuoteOf redeemInputC3).oracleAmount =
      Int.fdiv
        (redeemInputC3.amountIn * redeemInputC3.config.pegPriceUsd *
          vaultScaleOf redeemInputC3.vault * ORACLE_PRICE_SCALE)
        (redeemInputC3.oraclePriceUsd * lpScaleOf redeemInputC3.config * PEG_PRICE_SCALE) ∧
    (redeemQuoteOf redeemInputC3).oneToOneAmount =
      Int.fdiv
        ((redeemQuoteOf redeemInputC3).netAmount * redeemInputC3.config.pegPriceUsd *
          vaultScaleOf redeemInputC3.vault)
        (PEG_PRICE_SCALE * lpScaleOf redeemInputC3.config) :=
  redeem_inverse_conversion redeemInputC3 (redeemQuoteOf redeemInputC3) (by decide)

/-- C4: for a positive amount, a slot with durationSeconds 0 is skipped; an
expired window makes the used amount 0 regardless of the persisted counters;
a zero per-operation cap gives remaining capacity 0, which any positive
amount violates; otherwise remaining is cap minus used, a violation happens
exactly when the amount exceeds it, and the reported remaining is clamped
below at 0. -/
theorem period_slot_semantics (limit : PeriodLimit) (now amount : Int)
    (op : PeriodLimitCheckOperation) (hamt : 0 < amount) :
    (limit.durationSeconds = 0 →
      getRemainingCapacity limit now op = none ∧
      findLimitExceedance [limit] amount now op = none) ∧
    (limit.durationSeconds ≠ 0 → opMaxAmount op limit = 0 →
      getRemainingCapacity limit now op = some 0 ∧
      findLimitExceedance [limit] amount now op = some 0) ∧
    (limit.durationSeconds ≠ 0 → opMaxAmount op limit ≠ 0 →
      now - limit.windowStart ≥ limit.durationSeconds →
      getRemainingCapacity limit now op = some (opMaxAmount op limit)) ∧
    (limit.durationSeconds ≠ 0 → opMaxAmount op limit ≠ 0 →
      now - limit.windowStart < limit.durationSeconds →
      getRemainingCapacity limit now op =
        some (opMaxAmount op limit - opUsedAmount op limit)) ∧
    (∀ r, getRemainingCapacity limit now op = some r →
      findLimitExceedance [limit] amount now op =
        if r < amount then some (max r 0) else none) := by
  refine ⟨?_, ?_, ?_, ?_, ?_⟩
  · intro hd
    constructor
    · simp [getRemainingCapacity, hd]
    · simp [findLimitExceedance, getRemainingCapacity, hd]
  · intro hd hm
    constructor
    · cases op <;> simp_all [getRemainingCapacity, opMaxAmount]
    · cases op <;>
        simp_all [findLimitExceedance, getRemainingCapacity, opMaxAmount, hamt]
  · intro hd hm hw
    cases op <;> simp_all [getRemainingCapacity, opMaxAmount, opUsedAmount]
  · intro hd hm hw
    cases op <;>
      simp_all [getRemainingCapacity, opMaxAmount, opUsedAmount, not_le.mpr hw]
  · intro r hr
    simp only [findLimitExceedance, hr]
    split
    · congr 1
      split <;> omega
    · rfl

/-- Witness for C4 at the spec slot scenario: active hour window capped at
1000 with 900 used and a request of 150. -/
theorem period_slot_semantics_witness :
    getRemainingCapacity slotSpec 10000 PeriodLimitCheckOperation.mint =
      some (opMaxAmount PeriodLimitCheckOperation.mint slotSpec -
        opUsedAmount PeriodLimitCheckOperation.mint slotSpec) ∧
    findLimitExceedance [slotSpec] 150 10000 PeriodLimitCheckOperation.mint =
      (if (100 : Int) < 150 then some (max 100 0) else none) := by
  have h := period_slot_semantics slotSpec 10000 150 PeriodLimitCheckOperation.mint (by decide)
  exact ⟨h.2.2.2.1 (by decide) (by decide) (by decide), h.2.2.2.2 100 (by decide)⟩

/-- C5 counterexample: on an input whose config, vault and benefactor slots
are all exceeded, both a vault slot and a benefactor slot would be violated,
yet findPeriodLimitViolation reports the config account, not the vault. -/
theorem period_priority_vault_claim_fails :
    findLimitExceedance plInputAllViolated.vault.periodLimits plInputAllViolated.amount 100
      plInputAllViolated.operation = some 100 ∧
    findLimitExceedance plInputAllViolated.benefactor.periodLimits plInputAllViolated.amount
      100 plInputAllViolated.operation = some 100 ∧
    findPeriodLimitViolation plInputAllViolated 100 =
      Except.ok (some { account := PeriodLimitViolationAccount.config,
                        remainingAmount := 100 }) ∧
    PeriodLimitViolationAccount.config ≠ PeriodLimitViolationAccount.vault := by
  refine ⟨by decide, by decide, by decide, by decide⟩

/-- C5 (amended): findPeriodLimitViolation checks config, then vault, then
benefactor, each slot list in index order, and returns the first violation
found; in particular, when both a vault and a benefactor slot would be
violated and no config slot is, the reported account is the vault. -/
theorem period_check_priority (input : PeriodLimitCheckInput) (now : Int)
    (hamt : 0 < input.amount) :
    (∀ r, findLimitExceedance input.config.periodLimits input.amount now input.operation =
        some r →
      findPeriodLimitViolation input now =
        Except.ok (some { account := PeriodLimitViolationAccount.config,
                          remainingAmount := r })) ∧
    (∀ r, findLimitExceedance input.config.periodLimits input.amount now input.operation =
        none →
      findLimitExceedance input.vault.periodLimits input.amount now input.operation = some r →
      findPeriodLimitViolation input now =
        Except.ok (some { account := PeriodLimitViolationAccount.vault,
                          remainingAmount := r })) ∧
    (∀ r, findLimitExceedance input.config.periodLimits input.amount now input.operation =
        none →
      findLimitExceedance input.vault.periodLimits input.amount now input.operation = none →
      findLimitExceedance input.benefactor.periodLimits input.amount now input.operation =
        some r →
      findPeriodLimitViolation input now =
        Except.ok (some { account := PeriodLimitViolationAccount.benefactor,
                          remainingAmount := r })) ∧
    (findLimitExceedance input.config.periodLimits input.amount now input.operation = none →
      findLimitExceedance input.vault.periodLimits input.amount now input.operation = none →
      findLimitExceedance input.benefactor.periodLimits input.amount now input.operation =
        none →
      findPeriodLimitViolation input now = Except.ok none) ∧
    (∀ (limit : PeriodLimit) (rest : List PeriodLimit) (r : Int),
      getRemainingCapacity limit now input.operation = some r → r < input.amount →
      findLimitExceedance (limit :: rest) input.amount now input.operation = some (max r 0)) := by
  have hn : ¬ input.amount ≤ 0 := by omega
  refine ⟨?_, ?_, ?_, ?_, ?_⟩
  · intro r hc
    simp [findPeriodLimitViolation, hn, hc]
  · intro r hc hv
    simp [findPeriodLimitViolation, hn, hc, hv]
  · intro r hc hv hb
    simp [findPeriodLimitViolation, hn, hc, hv, hb]
  · intro hc hv hb
    simp [findPeriodLimitViolation, hn, hc, hv, hb]
  · intro limit rest r hr hlt
    simp only [findLimitExceedance, hr]
    rw [if_pos hlt]
    congr 1
    split <;> omega

/-- Witness for the amended C5: vault and benefactor slots both violated with
a clean config reports the vault account. -/
theorem period_check_priority_witness :
    findPeriodLimitViolation plInputVaultBenefactor 100 =
      Except.ok (some { account := PeriodLimitViolationAccount.vault,
                        remainingAmount := 100 }) := by
  have h := period_check_priority plInputVaultBenefactor 100 (by decide)
  exact h.2.1 100 (by decide) (by decide)

theorem parsePegPriceFlag_ok_elim (s : String) (v : PegPrice)
    (h : parsePegPriceFlag s = Except.ok v) :
    pegInputWellFormed s ∧ v.scaledValue = pegScaledOf s ∧ 1 ≤ pegScaledOf s ∧
      pegScaledOf s < 2 * 10 ^ PEG_PRICE_DECIMALS := by
  simp only [parsePegPriceFlag, parseU64StringFlag] at h
  split at h
  next hc1 => exact Except.noConfusion h
  next hc1 =>
  split at h
  next hc2 => exact Except.noConfusion h
  next hc2 =>
  split at h
  next e heq => exact Except.noConfusion h
  next wv heq =>
  split at heq
  next hc3 => exact Except.noConfusion heq
  next hc3 =>
  split at heq
  next hc4 => exact Except.noConfusion heq
  next hc4 =>
  injection heq with heq
  subst heq
  split at h
  next hc5 => exact Except.noConfusion h
  next hc5 =>
  split at h
  next hc6 => exact Except.noConfusion h
  next hc6 =>
  injection h with h
  refine ⟨⟨not_not.mp hc1, by omega⟩, ?_, ?_, ?_⟩
  · rw [← h]
    simp only [pegScaledOf]
  · simp only [pegScaledOf]
    linarith [not_le.mp hc5]
  · simp only [pegScaledOf]
    linarith [not_le.mp hc6]

theorem parsePegPriceFlag_ok_intro (s : String) (hwf : pegInputWellFormed s)
    (h1 : 1 ≤ pegScaledOf s) (h2 : pegScaledOf s < 2 * 10 ^ PEG_PRICE_DECIMALS) :
    ∃ v, parsePegPriceFlag s = Except.ok v := by
  obtain ⟨c1, c2⟩ := hwf
  have hw1 : (trimChars s.toList).takeWhile isDigitChar ≠ [] := by
    simp only [decimalRegexTest, Bool.and_eq_true, decide_eq_true_eq] at c1
    exact c1.1
  have hw2 : ((trimChars s.toList).takeWhile isDigitChar).all isDigitChar = true :=
    List.all_takeWhile
  have hpow : (10 : Int) ^ PEG_PRICE_DECIMALS = 10000 := by decide
  simp only [pegScaledOf] at h1 h2
  have hnc2 : ¬ (((trimChars s.toList).dropWhile isDigitChar).drop 1).length >
      PEG_PRICE_DECIMALS := by omega
  have hu : ¬ (digitsToNat ((trimChars s.toList).takeWhile isDigitChar) : Int) > U64_MAX := by
    have hm : U64_MAX = (18446744073709551615 : Int) := by decide
    rw [hpow] at h2
    rw [hm]
    omega
  have hns : ¬ ((digitsToNat ((trimChars s.toList).takeWhile isDigitChar) : Int) *
        10 ^ PEG_PRICE_DECIMALS +
      (digitsToNat ((((trimChars s.toList).dropWhile isDigitChar).drop 1) ++
        List.replicate
          (PEG_PRICE_DECIMALS - (((trimChars s.toList).dropWhile isDigitChar).drop 1).length)
          '0') : Int) ≤ 0) := by
    linarith
  have hnm : ¬ ((digitsToNat ((trimChars s.toList).takeWhile isDigitChar) : Int) *
        10 ^ PEG_PRICE_DECIMALS +
      (digitsToNat ((((trimChars s.toList).dropWhile isDigitChar).drop 1) ++
        List.replicate
          (PEG_PRICE_DECIMALS - (((trimChars s.toList).dropWhile isDigitChar).drop 1).length)
          '0') : Int) ≥ 2 * 10 ^ PEG_PRICE_DECIMALS) := by
    linarith
  refine ⟨{ scaledValue := pegScaledOf s, displayValue := pegDisplayOf s }, ?_⟩
  simp only [parsePegPriceFlag, parseU64StringFlag, pegScaledOf, pegDisplayOf]
  rw [if_neg (not_not_intro c1), if_neg hnc2, if_neg (not_not_intro ⟨hw1, hw2⟩),
    if_neg hu]
  simp only [if_neg hns, if_neg hnm]

/-- C8: the peg-price parser maps the string 1.0025 to the scaled integer
10025, rejects the string 2 (upper boundary exclusive) and the string 0, and
accepts exactly the well-formed decimal inputs whose scaled value lies in
the interval from 1 inclusive to 2 times 10^4 exclusive. -/
theorem peg_price_parser_spec :
    (parsePegPriceFlag "1.0025").map PegPrice.scaledValue = Except.ok 10025 ∧
    parsePegPriceFlag "2" = Except.error "Peg price must be less than 2." ∧
    parsePegPriceFlag "0" = Except.error "Peg price must be greater than 0" ∧
    (∀ (s : String) (v : PegPrice), parsePegPriceFlag s = Except.ok v →
      v.scaledValue = pegScaledOf s) ∧
    (∀ s : String, (∃ v, parsePegPriceFlag s = Except.ok v) ↔
      (pegInputWellFormed s ∧ 1 ≤ pegScaledOf s ∧
        pegScaledOf s < 2 * 10 ^ PEG_PRICE_DECIMALS)) := by
  refine ⟨by decide, by decide, by decide, ?_, ?_⟩
  · intro s v h
    exact (parsePegPriceFlag_ok_elim s v h).2.1
  · intro s
    constructor
    · rintro ⟨v, hv⟩
      obtain ⟨hwf, -, hlo, hhi⟩ := parsePegPriceFlag_ok_elim s v hv
      exact ⟨hwf, hlo, hhi⟩
    · rintro ⟨hwf, hlo, hhi⟩
      exact parsePegPriceFlag_ok_intro s hwf hlo hhi

/-- Witness for C8: the acceptance characterization instantiated at the
string 1.5. -/
theorem peg_price_parser_spec_witness : ∃ v, parsePegPriceFlag "1.5" = Except.ok v :=
  (peg_price_parser_spec.2.2.2.2 "1.5").mpr ⟨⟨by decide, by decide⟩, by decide, by decide⟩

end JupUsd
